import Mathlib

/-!
Shallow embedding of the `backend-restaurante` Express/Mongoose API.

The repository consists of `src/index.js` (two revisions: a hosted-image
variant whose product images are URLs in the JSON body, and a disk-storage
variant using multipart uploads, which also contains the movie router) and
`src/middlewares/authMiddleware.js`.

Modelling conventions:
  * MongoDB ObjectIds are embedded as `Nat`; each collection is a `List` of
    records, and `_id` is unique in a real MongoDB collection, so
    `findOne`/`findOneAndUpdate`/`findOneAndDelete`/`save` are modelled as
    operations on the first matching element (`List.find?`, `updateFirst`,
    `List.eraseP`).
  * A JSON/body field that may be absent is an `Option`; JavaScript
    truthiness of strings (absent, `null` and `""` are falsy) is `truthyStr`,
    of numbers (absent and `0` are falsy) is captured in `jsOrInt`.
  * `bcrypt.compare` and `jwt.verify` are impure collaborators; they are
    passed as explicit function parameters.
  * Dates are embedded as `Int` (milliseconds); an absent or empty
    `dateTime` field is `none`.
-/

namespace Restaurante

/-- User document (`UserSchema` in src/index.js): email plus bcrypt hash. -/
structure User where
  _id : Nat
  email : String
  password : String
  deriving Repr, DecidableEq

/-- Category document (`CategorySchema`): name plus owning user. -/
structure Category where
  _id : Nat
  name : String
  userId : Nat
  deriving Repr, DecidableEq

/-- Product document (`ProductSchema`); `image` and `categoryId` are
nullable, `activo` defaults to `true`. An absent `name`/`description` is
embedded as `""` and an absent `price` as `0`. -/
structure Product where
  _id : Nat
  name : String
  description : String
  price : Int
  image : Option String
  activo : Bool
  categoryId : Option Nat
  userId : Nat
  deriving Repr, DecidableEq

/-- Movie document (`MovieSchema`): all fields required by the schema. -/
structure Movie where
  _id : Nat
  name : String
  image : String
  genre : String
  description : String
  dateTime : Int
  userId : Nat
  deriving Repr, DecidableEq

/-- The MongoDB database: one list per collection. -/
structure DB where
  users : List User
  categories : List Category
  products : List Product
  movies : List Movie
  deriving Repr, DecidableEq

/-- JavaScript truthiness of an optional string: absent and empty are falsy. -/
def truthyStr : Option String → Bool
  | none => false
  | some s => !(s == "")

/-- Embedding of the JavaScript idiom `x = new || x` for string fields:
a falsy (absent or empty) new value keeps the old one. -/
def jsOrStr (newVal : Option String) (old : String) : String :=
  match newVal with
  | none => old
  | some s => if s == "" then old else s

/-- Embedding of the JavaScript idiom `x = new || x` for numeric fields:
a falsy (absent or zero) new value keeps the old one. -/
def jsOrInt (newVal : Option Int) (old : Int) : Int :=
  match newVal with
  | none => old
  | some n => if n == 0 then old else n

/-- Apply `f` to the first element satisfying `pred`, keep the rest.  This is
the embedding of a Mongo single-document write (`findOneAndUpdate`, or a
mongoose `document.save()` after a `findOne`) on a collection with unique
ids. -/
def updateFirst (pred : α → Bool) (f : α → α) : List α → List α
  | [] => []
  | a :: l => if pred a then f a :: l else a :: updateFirst pred f l

theorem updateFirst_of_find?_eq_none (pred : α → Bool) (f : α → α)
    (l : List α) (h : l.find? pred = none) : updateFirst pred f l = l := by
  induction l with
  | nil => rfl
  | cons a l ih =>
    rw [List.find?_cons] at h
    cases hpa : pred a with
    | true => simp [hpa] at h
    | false =>
      simp only [hpa] at h
      simp [updateFirst, hpa, ih h]

/-- Decompose a successful `find?` into a prefix of non-matching elements,
the found element, and a suffix. -/
theorem find?_decomp {pred : α → Bool} {l : List α} {a : α}
    (h : l.find? pred = some a) :
    ∃ l1 l2, l = l1 ++ a :: l2 ∧ ∀ x ∈ l1, pred x = false := by
  induction l with
  | nil => simp at h
  | cons b l ih =>
    rw [List.find?_cons] at h
    cases hpb : pred b with
    | true =>
      simp only [hpb] at h
      refine ⟨[], l, ?_, by simp⟩
      simp at h
      simp [h]
    | false =>
      simp only [hpb] at h
      obtain ⟨l1, l2, hl, hneg⟩ := ih h
      refine ⟨b :: l1, l2, by simp [hl], ?_⟩
      intro x hx
      rcases List.mem_cons.mp hx with hx | hx
      · simpa [hx] using hpb
      · exact hneg x hx

theorem find?_append_pos {pred : α → Bool} {l1 : List α} (l2 : List α)
    {a : α} (hneg : ∀ x ∈ l1, pred x = false) (hpa : pred a = true) :
    (l1 ++ a :: l2).find? pred = some a := by
  induction l1 with
  | nil => simp [List.find?_cons, hpa]
  | cons b l1 ih =>
    have hb : pred b = false := hneg b (by simp)
    simp only [List.cons_append, List.find?_cons, hb]
    exact ih (fun x hx => hneg x (by simp [hx]))

theorem updateFirst_append_pos {pred : α → Bool} (f : α → α) {l1 : List α}
    (l2 : List α) {a : α} (hneg : ∀ x ∈ l1, pred x = false)
    (hpa : pred a = true) :
    updateFirst pred f (l1 ++ a :: l2) = l1 ++ f a :: l2 := by
  induction l1 with
  | nil => simp [updateFirst, hpa]
  | cons b l1 ih =>
    have hb : pred b = false := hneg b (by simp)
    show updateFirst pred f (b :: (l1 ++ a :: l2)) = b :: (l1 ++ f a :: l2)
    rw [updateFirst, if_neg (by simp [hb]), ih (fun x hx => hneg x (by simp [hx]))]

theorem eraseP_append_pos {pred : α → Bool} {l1 : List α} (l2 : List α)
    {a : α} (hneg : ∀ x ∈ l1, pred x = false) (hpa : pred a = true) :
    (l1 ++ a :: l2).eraseP pred = l1 ++ l2 := by
  induction l1 with
  | nil => simp [List.eraseP_cons, hpa]
  | cons b l1 ih =>
    have hb : pred b = false := hneg b (by simp)
    simp only [List.cons_append, List.eraseP_cons, hb]
    simp only [cond_false, List.cons.injEq, true_and]
    exact ih (fun x hx => hneg x (by simp [hx]))

/-! Authorization gate (src/middlewares/authMiddleware.js). -/

/-- Outcome of the auth middleware: 401, 403, or attach `req.userId` and run
the handler. -/
inductive AuthResult where
  | unauthorized
  | invalidToken
  | ok (userId : Nat)
  deriving Repr, DecidableEq

/-- Split a character list at every occurrence of `sep` (the semantics of
JavaScript `String.prototype.split` with a one-character separator). -/
def splitChar (sep : Char) : List Char → List (List Char)
  | [] => [[]]
  | c :: rest =>
    if c == sep then [] :: splitChar sep rest
    else
      match splitChar sep rest with
      | [] => [[c]]
      | w :: ws => (c :: w) :: ws

/-- Embedding of `authHeader.split(' ')[1]` (missing index yields the empty
token, as `undefined` fed to `jwt.verify` can never verify). -/
def tokenOf (h : String) : String :=
  ⟨((splitChar ' ' h.data).drop 1).headD []⟩

/-- Embedding of `h.startsWith("Bearer ")`: the first seven characters are
exactly `Bearer `. -/
def startsWithBearer (h : String) : Bool :=
  "Bearer ".data.isPrefixOf h.data

/-- The auth middleware: rejects 401 unless the header starts with
`Bearer `, then verifies the token (`jwt.verify`, embedded as the `verify`
parameter returning the payload's `id` on success), rejecting 403 when
verification throws. -/
def authMiddleware (verify : String → Option Nat) (authHeader : Option String) :
    AuthResult :=
  match authHeader with
  | none => .unauthorized
  | some h =>
    if startsWithBearer h then
      match verify (tokenOf h) with
      | none => .invalidToken
      | some id => .ok id
    else .unauthorized

/-! Login (POST /login). -/

/-- A signed JWT: payload `{id}` with issued-at and expiry claims
(`expiresIn: "1h"`). -/
structure Token where
  id : Nat
  iat : Int
  exp : Int
  deriving Repr, DecidableEq

/-- Outcome of POST /login: 400 "Usuario no encontrado",
400 "Credenciales incorrectas", or 200 with the token. -/
inductive LoginResult where
  | notFoundError
  | invalidCredentialsError
  | ok (token : Token)
  deriving Repr, DecidableEq

/-- POST /login: `User.findOne({email})`, `bcrypt.compare` (embedded as the
`compare` parameter), then `jwt.sign({id: user._id}, ..., {expiresIn: "1h"})`. -/
def login (compare : String → String → Bool) (now : Int) (users : List User)
    (email password : String) : LoginResult :=
  match users.find? (fun u => u.email == email) with
  | none => .notFoundError
  | some user =>
    if compare password user.password then
      .ok { id := user._id, iat := now, exp := now + 3600 }
    else .invalidCredentialsError

/-! Category routes (hosted-image variant, src/index.js lines 135-188). -/

/-- Outcome of a create handler: 400, 201, or 500. -/
inductive CreateResult where
  | badRequest
  | created
  | serverError
  deriving Repr, DecidableEq

/-- POST /categories: no in-handler validation; the schema requires a
non-empty `name`, so saving without one throws a mongoose validation error,
which the catch maps to a generic 500. -/
def createCategory (uid : Nat) (name : Option String) (newId : Nat) (db : DB) :
    CreateResult × DB :=
  if truthyStr name then
    (.created, { db with categories :=
      db.categories ++ [{ _id := newId, name := name.getD "", userId := uid }] })
  else (.serverError, db)

/-- PUT /categories/:id: `findOneAndUpdate({_id, userId}, {name}, {new:true})`;
404 when no owned category matches. A `name` absent from the body is an
`undefined` update field, which mongoose drops. -/
def putCategory (uid cid : Nat) (name : Option String) (db : DB) :
    Option Category × DB :=
  match db.categories.find? (fun c => c._id == cid && c.userId == uid) with
  | none => (none, db)
  | some c =>
    let c' : Category := { c with name := name.getD c.name }
    let cats := updateFirst (fun x => x._id == cid && x.userId == uid)
      (fun _ => c') db.categories
    (some c', { db with categories := cats })

/-- DELETE /categories/:id: `findOneAndDelete({_id, userId})`, 404 when no
owned category matches, then
`Product.deleteMany({categoryId: id, userId})`. -/
def deleteCategory (uid cid : Nat) (db : DB) : Bool × DB :=
  match db.categories.find? (fun c => c._id == cid && c.userId == uid) with
  | none => (false, db)
  | some _ =>
    (true, { db with
      categories := db.categories.eraseP (fun c => c._id == cid && c.userId == uid),
      products := db.products.filter
        (fun p => !(p.categoryId == some cid && p.userId == uid)) })

/-! Product routes (hosted-image variant, src/index.js lines 121-293). -/

/-- Request body of the product routes; every field may be absent. -/
structure ProductBody where
  name : Option String := none
  description : Option String := none
  price : Option Int := none
  image : Option String := none
  categoryId : Option Nat := none
  deriving Repr, DecidableEq

/-- POST /products (hosted-image variant): rejects 400 only when `image` is
falsy; every other field is stored as supplied (absent fields are simply
missing from the document, embedded as "" / 0 / none). -/
def createProduct (uid : Nat) (b : ProductBody) (newId : Nat) (db : DB) :
    CreateResult × DB :=
  if truthyStr b.image then
    (.created, { db with products := db.products ++
      [{ _id := newId, name := b.name.getD "", description := b.description.getD "",
         price := b.price.getD 0, image := b.image, activo := true,
         categoryId := b.categoryId, userId := uid }] })
  else (.badRequest, db)

/-- GET /public/products: filter `{activo: true}` plus the optional
`categoryId` query parameter, then `populate("categoryId", "name")`,
embedded as pairing each product with its category's name (when the
reference resolves). -/
def publicProducts (db : DB) (categoryId : Option Nat) : List (Product × Option String) :=
  (db.products.filter (fun p =>
      p.activo && (match categoryId with
                   | none => true
                   | some c => p.categoryId == some c))).map
    (fun p => (p, p.categoryId.bind (fun cid =>
      (db.categories.find? (fun c => c._id == cid)).map (fun c => c.name))))

/-- PUT /products/:id (hosted-image variant): `findOne({_id, userId})`
(404 when absent), then the `x = body.x || x` updates for name, description
and price, `image` only when truthy, then `save()`. -/
def putProduct (uid pid : Nat) (b : ProductBody) (db : DB) :
    Option Product × DB :=
  match db.products.find? (fun p => p._id == pid && p.userId == uid) with
  | none => (none, db)
  | some p =>
    let p' : Product := { p with
      name := jsOrStr b.name p.name,
      description := jsOrStr b.description p.description,
      price := jsOrInt b.price p.price,
      image := if truthyStr b.image then b.image else p.image }
    let prods := updateFirst (fun q => q._id == pid && q.userId == uid)
      (fun _ => p') db.products
    (some p', { db with products := prods })

/-- PUT /products/:id/toggle-active: `findOne({_id, userId})` (404 when
absent), flip `activo`, `save()`, respond with the new value. -/
def toggleActive (uid pid : Nat) (db : DB) : Option Bool × DB :=
  match db.products.find? (fun p => p._id == pid && p.userId == uid) with
  | none => (none, db)
  | some p =>
    let p' : Product := { p with activo := !p.activo }
    let prods := updateFirst (fun q => q._id == pid && q.userId == uid)
      (fun _ => p') db.products
    (some p'.activo, { db with products := prods })

/-- DELETE /products/:id: `findOneAndDelete({_id, userId})`, 404 when no
owned product matches. -/
def deleteProduct (uid pid : Nat) (db : DB) : Bool × DB :=
  match db.products.find? (fun p => p._id == pid && p.userId == uid) with
  | none => (false, db)
  | some _ =>
    (true, { db with products :=
      db.products.eraseP (fun p => p._id == pid && p.userId == uid) })

/-! Movie routes (src/index.js lines 586-686, disk variant). -/

/-- Request body accepted by the movie routes.  `PUT /movies/:id` passes the
whole body (`const updateData = req.body`) to `findByIdAndUpdate`, so any
field of the schema — `userId` included — may appear. -/
structure MovieBody where
  name : Option String := none
  genre : Option String := none
  description : Option String := none
  dateTime : Option Int := none
  image : Option String := none
  userId : Option Nat := none
  deriving Repr, DecidableEq

/-- POST /movies: presence check on name/genre/description/dateTime (400 on
any falsy one), then on the uploaded file (400 when absent), then save
stamped with the caller's id. -/
def createMovie (uid : Nat) (b : MovieBody) (file : Option String)
    (newId : Nat) (db : DB) : CreateResult × DB :=
  if !truthyStr b.name || !truthyStr b.genre || !truthyStr b.description
      || !b.dateTime.isSome then
    (.badRequest, db)
  else
    match file with
    | none => (.badRequest, db)
    | some img =>
      (.created, { db with movies := db.movies ++
        [{ _id := newId, name := b.name.getD "", genre := b.genre.getD "",
           description := b.description.getD "", dateTime := b.dateTime.getD 0,
           image := img, userId := uid }] })

/-- The update applied by `Movie.findByIdAndUpdate(id, updateData)`: every
field present in the body is set verbatim; a multipart file overwrites the
body's `image` field first (`if (req.file) updateData.image = filename`). -/
def applyMovieUpdate (b : MovieBody) (file : Option String) (m : Movie) : Movie :=
  let img := match file with
    | some f => some f
    | none => b.image
  { m with
    name := b.name.getD m.name,
    genre := b.genre.getD m.genre,
    description := b.description.getD m.description,
    dateTime := b.dateTime.getD m.dateTime,
    image := img.getD m.image,
    userId := b.userId.getD m.userId }

/-- PUT /movies/:id: ownership check `findOne({_id, userId})` (404 when it
fails), then `findByIdAndUpdate(id, updateData, {new:true})`, which matches
on `_id` alone and sets every supplied body field. -/
def putMovie (uid mid : Nat) (b : MovieBody) (file : Option String) (db : DB) :
    Option Movie × DB :=
  match db.movies.find? (fun m => m._id == mid && m.userId == uid) with
  | none => (none, db)
  | some _ =>
    let movies := updateFirst (fun m => m._id == mid) (applyMovieUpdate b file)
      db.movies
    ((db.movies.find? (fun m => m._id == mid)).map (applyMovieUpdate b file),
     { db with movies := movies })

/-- DELETE /movies/:id: `Movie.findByIdAndDelete(id)` — the query carries no
`userId`, so the match is on `_id` alone; `uid` (the authenticated caller)
is never consulted. -/
def deleteMovie (uid mid : Nat) (db : DB) : Bool × DB :=
  match db.movies.find? (fun m => m._id == mid) with
  | none => (false, db)
  | some _ =>
    (true, { db with movies := db.movies.eraseP (fun m => m._id == mid) })

/-! Disk-storage product variant (src/index.js lines 485-553). -/

/-- Multipart request body of the disk-variant product routes (no `image`
field: the binary travels as `req.file`). -/
structure DiskBody where
  name : Option String := none
  description : Option String := none
  price : Option Int := none
  deriving Repr, DecidableEq

/-- POST /products (disk variant): no validation at all; `image` is the
uploaded filename or `null`. -/
def createProductDisk (uid : Nat) (b : DiskBody) (categoryId : Option Nat)
    (file : Option String) (newId : Nat) (db : DB) : CreateResult × DB :=
  (.created, { db with products := db.products ++
    [{ _id := newId, name := b.name.getD "", description := b.description.getD "",
       price := b.price.getD 0, image := file, activo := true,
       categoryId := categoryId, userId := uid }] })

/-- Outcome of the disk-variant PUT /products/:id: 404, 500 (the uncaught
`TypeError` of `path.join(__dirname, "photos", null)` mapped by the catch),
or 200 with the updated product. -/
inductive DiskPutResult where
  | notFound
  | serverError
  | ok (p : Product)
  deriving Repr, DecidableEq

/-- PUT /products/:id (disk variant).  The filesystem is the set of stored
paths, embedded as a list.  With a new file: `path.join` on the old image —
which throws when the stored image is `null`, caught as a 500 before any
field is touched — then `fs.unlinkSync` when the old path exists, then the
`|| `-style field updates and `save()`. -/
def putProductDisk (uid pid : Nat) (b : DiskBody) (file : Option String)
    (fsys : List String) (db : DB) : DiskPutResult × List String × DB :=
  match db.products.find? (fun p => p._id == pid && p.userId == uid) with
  | none => (.notFound, fsys, db)
  | some p =>
    match file with
    | some f =>
      match p.image with
      | none => (.serverError, fsys, db)
      | some img =>
        let imagePath := "photos/" ++ img
        let fsys' := if fsys.contains imagePath then
            fsys.filter (fun q => !(q == imagePath))
          else fsys
        let p' : Product := { p with
          name := jsOrStr b.name p.name,
          description := jsOrStr b.description p.description,
          price := jsOrInt b.price p.price,
          image := some f }
        let prods := updateFirst (fun q => q._id == pid && q.userId == uid)
          (fun _ => p') db.products
        (.ok p', fsys', { db with products := prods })
    | none =>
      let p' : Product := { p with
        name := jsOrStr b.name p.name,
        description := jsOrStr b.description p.description,
        price := jsOrInt b.price p.price }
      let prods := updateFirst (fun q => q._id == pid && q.userId == uid)
        (fun _ => p') db.products
      (.ok p', fsys, { db with products := prods })

/-! Theorems about the authorization gate and login. -/

/-- C3: the Authorization Gate answers 401 when the Authorization header is
missing or does not start with "Bearer " — uniformly in the verifier, i.e.
without attempting token verification; when the header is well-formed and
verification of the carried token fails it answers 403; and on successful
verification the embedded user identifier is attached to the request context
(the `ok` payload handed to the handler). -/
theorem c3_authorization_gate (verify : String → Option Nat) (h : Option String) :
    ((h = none ∨ ∃ s, h = some s ∧ startsWithBearer s = false) →
      ∀ verify2 : String → Option Nat, authMiddleware verify2 h = .unauthorized) ∧
    (∀ s, h = some s → startsWithBearer s = true →
      verify (tokenOf s) = none → authMiddleware verify h = .invalidToken) ∧
    (∀ s uid, h = some s → startsWithBearer s = true →
      verify (tokenOf s) = some uid → authMiddleware verify h = .ok uid) := by
  refine ⟨?_, ?_, ?_⟩
  · rintro (rfl | ⟨s, rfl, hs⟩) verify2
    · rfl
    · simp [authMiddleware, hs]
  · rintro s rfl hs hv
    simp [authMiddleware, hs, hv]
  · rintro s uid rfl hs hv
    simp [authMiddleware, hs, hv]

/-- Witness for C3 at concrete headers and verifiers. -/
theorem c3_authorization_gate_witness :
    authMiddleware (fun _ => some 7) none = .unauthorized ∧
    authMiddleware (fun _ => none) (some "Bearer tok") = .invalidToken ∧
    authMiddleware (fun t => if t == "tok" then some 7 else none)
      (some "Bearer tok") = .ok 7 := by
  refine ⟨?_, ?_, ?_⟩
  · exact (c3_authorization_gate (fun _ => some 7) none).1 (Or.inl rfl) _
  · exact (c3_authorization_gate (fun _ => none) (some "Bearer tok")).2.1
      "Bearer tok" rfl (by decide) rfl
  · exact (c3_authorization_gate (fun t => if t == "tok" then some 7 else none)
      (some "Bearer tok")).2.2 "Bearer tok" 7 rfl (by decide) (by decide)

/-- C4: login yields not-found when no user matches the email; when a user
matches but the hash comparison fails it yields invalid-credentials (never
not-found); when both succeed it returns a token bound to that user's
identifier whose expiry sits exactly one hour (3600 s) after issuance. -/
theorem c4_login (compare : String → String → Bool) (now : Int)
    (users : List User) (email password : String) :
    (users.find? (fun u => u.email == email) = none →
      login compare now users email password = .notFoundError) ∧
    (∀ u, users.find? (fun u => u.email == email) = some u →
      compare password u.password = false →
      login compare now users email password = .invalidCredentialsError) ∧
    (∀ u, users.find? (fun u => u.email == email) = some u →
      compare password u.password = true →
      login compare now users email password =
        .ok { id := u._id, iat := now, exp := now + 3600 }) := by
  refine ⟨fun hf => ?_, fun u hf hc => ?_, fun u hf hc => ?_⟩
  · simp [login, hf]
  · simp [login, hf, hc]
  · simp [login, hf, hc]

/-- Witness for C4 at a concrete user store and hash comparison. -/
theorem c4_login_witness :
    login (fun p h => p == "p" && h == "HASH") 0 [⟨1, "a@x.com", "HASH"⟩]
      "b@x.com" "p" = .notFoundError ∧
    login (fun p h => p == "p" && h == "HASH") 0 [⟨1, "a@x.com", "HASH"⟩]
      "a@x.com" "wrong" = .invalidCredentialsError ∧
    login (fun p h => p == "p" && h == "HASH") 0 [⟨1, "a@x.com", "HASH"⟩]
      "a@x.com" "p" = .ok ⟨1, 0, 3600⟩ := by
  refine ⟨?_, ?_, ?_⟩
  · exact (c4_login (fun p h => p == "p" && h == "HASH") 0
      [⟨1, "a@x.com", "HASH"⟩] "b@x.com" "p").1 (by decide)
  · exact (c4_login (fun p h => p == "p" && h == "HASH") 0
      [⟨1, "a@x.com", "HASH"⟩] "a@x.com" "wrong").2.1
      ⟨1, "a@x.com", "HASH"⟩ (by decide) (by decide)
  · have hx := (c4_login (fun p h => p == "p" && h == "HASH") 0
      [⟨1, "a@x.com", "HASH"⟩] "a@x.com" "p").2.2
      ⟨1, "a@x.com", "HASH"⟩ (by decide) (by decide)
    simpa using hx

/-! Ownership scoping (C1) and owner immutability (C2). -/

theorem map_updateFirst_of_find? {α β : Type} {pred : α → Bool} {f : α → α}
    {g : α → β} {l : List α} {a : α} (hf : l.find? pred = some a)
    (hg : g (f a) = g a) : (updateFirst pred f l).map g = l.map g := by
  obtain ⟨l1, l2, rfl, hneg⟩ := find?_decomp hf
  have hpa : pred a = true := List.find?_some hf
  rw [updateFirst_append_pos _ _ hneg hpa]
  simp [hg]

/-- Empty database, used to instantiate several witnesses. -/
def emptyDB : DB := { users := [], categories := [], products := [], movies := [] }

/-- Database holding a single movie owned by user 1. -/
def c1db : DB := { emptyDB with
  movies := [{ _id := 1, name := "M", image := "i", genre := "g",
               description := "d", dateTime := 0, userId := 1 }] }

/-- C1 counterexample: caller 2 deletes a movie owned by user 1 — the
delete succeeds and removes the record, because
`Movie.findByIdAndDelete(id)` matches on the identifier alone; the claimed
cross-owner 404 does not happen for movie deletion. -/
theorem c1_cross_owner_counterexample :
    (2 ≠ 1) ∧ (∀ m ∈ c1db.movies, m.userId = 1) ∧
    deleteMovie 2 1 c1db = (true, { c1db with movies := [] }) := by decide

/-- C1 (amended): when every record carrying the requested identifier
belongs to owner B and the caller is A ≠ B, then category update/delete,
product update/toggle/delete and movie update all fail with 404 and leave
the database unchanged — exactly as for a nonexistent record.  Movie
deletion is excluded: it matches on the identifier alone and succeeds
cross-owner. -/
theorem c1_owner_scoped_404 (db : DB) (A B id : Nat) (hAB : A ≠ B)
    (hc : ∀ c ∈ db.categories, c._id = id → c.userId = B)
    (hp : ∀ p ∈ db.products, p._id = id → p.userId = B)
    (hm : ∀ m ∈ db.movies, m._id = id → m.userId = B) :
    (∀ nm, putCategory A id nm db = (none, db)) ∧
    deleteCategory A id db = (false, db) ∧
    (∀ b, putProduct A id b db = (none, db)) ∧
    toggleActive A id db = (none, db) ∧
    deleteProduct A id db = (false, db) ∧
    (∀ b f, putMovie A id b f db = (none, db)) := by
  have hcn : db.categories.find? (fun c => c._id == id && c.userId == A) = none := by
    rw [List.find?_eq_none]
    intro c hcm
    simp only [Bool.and_eq_true, beq_iff_eq, not_and]
    intro hid hA
    exact hAB (hA ▸ hc c hcm hid)
  have hpn : db.products.find? (fun p => p._id == id && p.userId == A) = none := by
    rw [List.find?_eq_none]
    intro p hpm
    simp only [Bool.and_eq_true, beq_iff_eq, not_and]
    intro hid hA
    exact hAB (hA ▸ hp p hpm hid)
  have hmn : db.movies.find? (fun m => m._id == id && m.userId == A) = none := by
    rw [List.find?_eq_none]
    intro m hmm
    simp only [Bool.and_eq_true, beq_iff_eq, not_and]
    intro hid hA
    exact hAB (hA ▸ hm m hmm hid)
  refine ⟨fun nm => ?_, ?_, fun b => ?_, ?_, ?_, fun b f => ?_⟩
  · simp [putCategory, hcn]
  · simp [deleteCategory, hcn]
  · simp [putProduct, hpn]
  · simp [toggleActive, hpn]
  · simp [deleteProduct, hpn]
  · simp [putMovie, hmn]

/-- Database with one category, product and movie, all owned by user 1. -/
def c1wdb : DB :=
  { users := [], categories := [⟨1, "c", 1⟩],
    products := [⟨1, "p", "d", 5, none, true, none, 1⟩],
    movies := [⟨1, "m", "i", "g", "d", 0, 1⟩] }

/-- Witness for the amended C1: caller 2 against records of owner 1. -/
theorem c1_owner_scoped_404_witness :
    putCategory 2 1 (some "x") c1wdb = (none, c1wdb) ∧
    deleteCategory 2 1 c1wdb = (false, c1wdb) ∧
    putProduct 2 1 {} c1wdb = (none, c1wdb) ∧
    toggleActive 2 1 c1wdb = (none, c1wdb) ∧
    deleteProduct 2 1 c1wdb = (false, c1wdb) ∧
    putMovie 2 1 {} none c1wdb = (none, c1wdb) := by
  have h := c1_owner_scoped_404 c1wdb 2 1 1 (by decide) (by decide) (by decide)
    (by decide)
  exact ⟨h.1 (some "x"), h.2.1, h.2.2.1 {}, h.2.2.2.1, h.2.2.2.2.1,
    h.2.2.2.2.2 {} none⟩

/-- Database holding a single movie owned by user 1, for C2. -/
def c2db : DB := { emptyDB with
  movies := [{ _id := 1, name := "m", image := "i", genre := "g",
               description := "d", dateTime := 0, userId := 1 }] }

/-- C2 counterexample: the movie update passes the whole request body to
`findByIdAndUpdate`, so a body carrying `userId` reassigns the owner — here
owner 1 updates their own movie supplying `userId: 2` and the stored owner
becomes 2. -/
theorem c2_owner_reassigned_counterexample :
    ((putMovie 1 1 { userId := some 2 } none c2db).2.movies.map Movie.userId
      = [2]) ∧
    (c2db.movies.map Movie.userId = [1]) := by decide

/-- C2 (amended): the owner identifier is stamped from the authenticated
caller at creation and is preserved by category update, product update and
toggle, and by movie update whenever the body does not carry a `userId`
field; the movie update applies a caller-supplied `userId` verbatim (the
counterexample), which is the one exposed way to change it. -/
theorem c2_owner_immutable (db : DB) (uid id nid : Nat) (nm : Option String)
    (pb : ProductBody) (mb : MovieBody) (f : Option String)
    (hmb : mb.userId = none) :
    ((putCategory uid id nm db).2.categories.map Category.userId
      = db.categories.map Category.userId) ∧
    ((putProduct uid id pb db).2.products.map Product.userId
      = db.products.map Product.userId) ∧
    ((toggleActive uid id db).2.products.map Product.userId
      = db.products.map Product.userId) ∧
    ((putMovie uid id mb f db).2.movies.map Movie.userId
      = db.movies.map Movie.userId) ∧
    (∀ c ∈ (createCategory uid nm nid db).2.categories,
      c ∈ db.categories ∨ c.userId = uid) ∧
    (∀ p ∈ (createProduct uid pb nid db).2.products,
      p ∈ db.products ∨ p.userId = uid) ∧
    (∀ m ∈ (createMovie uid mb f nid db).2.movies,
      m ∈ db.movies ∨ m.userId = uid) := by
  refine ⟨?_, ?_, ?_, ?_, ?_, ?_, ?_⟩
  · cases hf : db.categories.find? (fun c => c._id == id && c.userId == uid) with
    | none => simp [putCategory, hf]
    | some c =>
      simp only [putCategory, hf]
      exact map_updateFirst_of_find? hf rfl
  · cases hf : db.products.find? (fun p => p._id == id && p.userId == uid) with
    | none => simp [putProduct, hf]
    | some p =>
      simp only [putProduct, hf]
      exact map_updateFirst_of_find? hf rfl
  · cases hf : db.products.find? (fun p => p._id == id && p.userId == uid) with
    | none => simp [toggleActive, hf]
    | some p =>
      simp only [toggleActive, hf]
      exact map_updateFirst_of_find? hf rfl
  · cases hf : db.movies.find? (fun m => m._id == id && m.userId == uid) with
    | none => simp [putMovie, hf]
    | some m =>
      have hex : ∃ x ∈ db.movies, (x._id == id) = true := by
        refine ⟨m, List.mem_of_find?_eq_some hf, ?_⟩
        have := List.find?_some hf
        simp only [Bool.and_eq_true] at this
        exact this.1
      obtain ⟨m2, hf2⟩ := Option.isSome_iff_exists.mp (List.find?_isSome.mpr hex)
      simp only [putMovie, hf]
      exact map_updateFirst_of_find? hf2 (by simp [applyMovieUpdate, hmb])
  · intro c hcm
    simp only [createCategory] at hcm
    split at hcm
    · rcases List.mem_append.mp hcm with h | h
      · exact Or.inl h
      · simp only [List.mem_singleton] at h
        exact Or.inr (by rw [h])
    · exact Or.inl hcm
  · intro p hpm
    simp only [createProduct] at hpm
    split at hpm
    · rcases List.mem_append.mp hpm with h | h
      · exact Or.inl h
      · simp only [List.mem_singleton] at h
        exact Or.inr (by rw [h])
    · exact Or.inl hpm
  · intro m hmm
    simp only [createMovie] at hmm
    split at hmm
    · exact Or.inl hmm
    · cases f with
    | none => exact Or.inl hmm
    | some img =>
      rcases List.mem_append.mp hmm with h | h
      · exact Or.inl h
      · simp only [List.mem_singleton] at h
        exact Or.inr (by rw [h])

/-- Database with one record of each kind, all owned by user 1, for the C2
witness. -/
def c2wdb : DB :=
  { users := [], categories := [⟨1, "c", 1⟩],
    products := [⟨1, "p", "d", 5, none, true, none, 1⟩],
    movies := [⟨1, "m", "i", "g", "d", 0, 1⟩] }

/-- Witness for the amended C2 at concrete updates by owner 1. -/
theorem c2_owner_immutable_witness :
    ((putCategory 1 1 (some "n") c2wdb).2.categories.map Category.userId
      = c2wdb.categories.map Category.userId) ∧
    ((putProduct 1 1 { name := some "n" } c2wdb).2.products.map Product.userId
      = c2wdb.products.map Product.userId) ∧
    ((toggleActive 1 1 c2wdb).2.products.map Product.userId
      = c2wdb.products.map Product.userId) ∧
    ((putMovie 1 1 { name := some "n" } none c2wdb).2.movies.map Movie.userId
      = c2wdb.movies.map Movie.userId) := by
  have h := c2_owner_immutable c2wdb 1 1 99 (some "n") { name := some "n" }
    { name := some "n" } none rfl
  exact ⟨h.1, h.2.1, h.2.2.1, h.2.2.2.1⟩

/-! Category-delete cascade (C5) and the toggle involution (C6). -/

/-- C5: deleting a category the caller owns succeeds, leaves no product of
that owner referencing the deleted category, removes only products that
were already stored, and keeps every product of any other owner — even if
it references the same category identifier. -/
theorem c5_cascade (db : DB) (uid cid : Nat) (c : Category)
    (hc : c ∈ db.categories) (hid : c._id = cid) (hu : c.userId = uid) :
    (deleteCategory uid cid db).1 = true ∧
    (∀ p ∈ (deleteCategory uid cid db).2.products,
      ¬(p.userId = uid ∧ p.categoryId = some cid)) ∧
    (∀ p ∈ (deleteCategory uid cid db).2.products, p ∈ db.products) ∧
    (∀ p ∈ db.products, p.userId ≠ uid →
      p ∈ (deleteCategory uid cid db).2.products) := by
  have hex : ∃ x ∈ db.categories, (x._id == cid && x.userId == uid) = true :=
    ⟨c, hc, by simp [hid, hu]⟩
  obtain ⟨c0, hf⟩ := Option.isSome_iff_exists.mp (List.find?_isSome.mpr hex)
  simp only [deleteCategory, hf]
  refine ⟨trivial, ?_, ?_, ?_⟩
  · intro p hp
    have hkeep := (List.mem_filter.mp hp).2
    rintro ⟨hpu, hpc⟩
    simp [hpu, hpc] at hkeep
  · intro p hp
    exact (List.mem_filter.mp hp).1
  · intro p hp hne
    refine List.mem_filter.mpr ⟨hp, ?_⟩
    simp only [Bool.not_eq_true', Bool.and_eq_false_iff]
    right
    simpa using hne

/-- Database for the C5 witness: user 1 owns category 1 with a product in
it; user 2 owns a product referencing the same category identifier. -/
def c5wdb : DB :=
  { users := [], categories := [⟨1, "c", 1⟩],
    products := [⟨1, "mine", "d", 5, none, true, some 1, 1⟩,
                 ⟨2, "theirs", "d", 7, none, true, some 1, 2⟩],
    movies := [] }

/-- Witness for C5: the delete succeeds and the other owner's product
survives the cascade. -/
theorem c5_cascade_witness :
    (deleteCategory 1 1 c5wdb).1 = true ∧
    (⟨2, "theirs", "d", 7, none, true, some 1, 2⟩ : Product)
      ∈ (deleteCategory 1 1 c5wdb).2.products := by
  have h := c5_cascade c5wdb 1 1 ⟨1, "c", 1⟩ (by decide) rfl rfl
  exact ⟨h.1, h.2.2.2 ⟨2, "theirs", "d", 7, none, true, some 1, 2⟩
    (by decide) (by decide)⟩

/-- C6: toggling an owned product returns the flipped flag and persists it,
changing no other field of any record; a second toggle returns the original
flag and restores the database exactly. -/
theorem c6_toggle_involution (db : DB) (uid pid : Nat) (p : Product)
    (hf : db.products.find? (fun q => q._id == pid && q.userId == uid) = some p) :
    (toggleActive uid pid db).1 = some (!p.activo) ∧
    ((toggleActive uid pid db).2.products.map
        (fun q => (q._id, q.name, q.description, q.price, q.image,
                   q.categoryId, q.userId))
      = db.products.map
        (fun q => (q._id, q.name, q.description, q.price, q.image,
                   q.categoryId, q.userId))) ∧
    (toggleActive uid pid (toggleActive uid pid db).2).1 = some p.activo ∧
    (toggleActive uid pid (toggleActive uid pid db).2).2 = db := by
  have hpa := List.find?_some hf
  obtain ⟨l1, l2, hl, hneg⟩ := find?_decomp hf
  have hupd1 : updateFirst (fun q : Product => q._id == pid && q.userId == uid)
      (fun _ => { p with activo := !p.activo }) db.products
      = l1 ++ { p with activo := !p.activo } :: l2 := by
    rw [hl]
    exact updateFirst_append_pos _ _ hneg hpa
  have hdb1 : (toggleActive uid pid db).2
      = { db with products := l1 ++ { p with activo := !p.activo } :: l2 } := by
    simp [toggleActive, hf, hupd1]
  have hf2 : (l1 ++ { p with activo := !p.activo } :: l2).find?
      (fun q : Product => q._id == pid && q.userId == uid)
      = some { p with activo := !p.activo } :=
    find?_append_pos _ hneg hpa
  have hupd2 : updateFirst (fun q : Product => q._id == pid && q.userId == uid)
      (fun _ => { p with activo := !(!p.activo) })
      (l1 ++ { p with activo := !p.activo } :: l2)
      = l1 ++ { p with activo := !(!p.activo) } :: l2 :=
    updateFirst_append_pos _ _ hneg hpa
  have hpp : ({ p with activo := !(!p.activo) } : Product) = p := by
    simp [Bool.not_not]
  refine ⟨by simp [toggleActive, hf], ?_, ?_, ?_⟩
  · rw [hdb1]
    simp only
    rw [hl]
    simp
  · rw [hdb1]
    simp [toggleActive, hf2, Bool.not_not]
  · rw [hdb1]
    simp only [toggleActive, hf2]
    rw [hupd2, hpp, ← hl]

/-- Database for the C6 witness: one active product owned by user 1. -/
def c6wdb : DB := { emptyDB with
  products := [⟨1, "p", "d", 5, none, true, some 1, 1⟩] }

/-- Witness for C6: a fresh product toggles to `false`, and a second toggle
restores the database. -/
theorem c6_toggle_involution_witness :
    (toggleActive 1 1 c6wdb).1 = some false ∧
    (toggleActive 1 1 (toggleActive 1 1 c6wdb).2).1 = some true ∧
    (toggleActive 1 1 (toggleActive 1 1 c6wdb).2).2 = c6wdb := by
  have h := c6_toggle_involution c6wdb 1 1 ⟨1, "p", "d", 5, none, true, some 1, 1⟩
    (by decide)
  exact ⟨h.1, h.2.2.1, h.2.2.2⟩

/-! Partial product updates (C7). -/

/-- C7: an owned-product update applies exactly the supplied truthy fields:
an absent or falsy `name`/`description`/`price` keeps the prior value, a
truthy one replaces it; `image` is replaced only when truthy (hosted
variant) and kept in the disk variant without a new upload; `_id`, `activo`,
`categoryId` and `userId` are untouched, and every other record is left
exactly in place.  Stated for the hosted-image handler (`p'`) and for the
disk-variant handler without a file (`q'`). -/
theorem c7_partial_update (db : DB) (uid pid : Nat) (b : ProductBody)
    (d : DiskBody) (fsys : List String) (p : Product)
    (hf : db.products.find? (fun q => q._id == pid && q.userId == uid) = some p) :
    ∃ p' q' l1 l2,
      db.products = l1 ++ p :: l2 ∧
      putProduct uid pid b db = (some p', { db with products := l1 ++ p' :: l2 }) ∧
      putProductDisk uid pid d none fsys db
        = (.ok q', fsys, { db with products := l1 ++ q' :: l2 }) ∧
      ((b.name = none ∨ b.name = some "") → p'.name = p.name) ∧
      (∀ s, b.name = some s → s ≠ "" → p'.name = s) ∧
      ((b.description = none ∨ b.description = some "") →
        p'.description = p.description) ∧
      (∀ s, b.description = some s → s ≠ "" → p'.description = s) ∧
      ((b.price = none ∨ b.price = some 0) → p'.price = p.price) ∧
      (∀ n, b.price = some n → n ≠ 0 → p'.price = n) ∧
      (truthyStr b.image = false → p'.image = p.image) ∧
      (truthyStr b.image = true → p'.image = b.image) ∧
      p'._id = p._id ∧ p'.activo = p.activo ∧ p'.categoryId = p.categoryId ∧
      p'.userId = p.userId ∧
      ((d.name = none ∨ d.name = some "") → q'.name = p.name) ∧
      (∀ s, d.name = some s → s ≠ "" → q'.name = s) ∧
      ((d.description = none ∨ d.description = some "") →
        q'.description = p.description) ∧
      (∀ s, d.description = some s → s ≠ "" → q'.description = s) ∧
      ((d.price = none ∨ d.price = some 0) → q'.price = p.price) ∧
      (∀ n, d.price = some n → n ≠ 0 → q'.price = n) ∧
      q'.image = p.image ∧ q'._id = p._id ∧ q'.activo = p.activo ∧
      q'.categoryId = p.categoryId ∧ q'.userId = p.userId := by
  obtain ⟨l1, l2, hl, hneg⟩ := find?_decomp hf
  have hpa := List.find?_some hf
  have hupd : ∀ f : Product → Product,
      updateFirst (fun q => q._id == pid && q.userId == uid) f db.products
        = l1 ++ f p :: l2 := by
    intro f
    rw [hl]
    exact updateFirst_append_pos _ _ hneg hpa
  refine ⟨{ p with
      name := jsOrStr b.name p.name,
      description := jsOrStr b.description p.description,
      price := jsOrInt b.price p.price,
      image := if truthyStr b.image then b.image else p.image },
    { p with
      name := jsOrStr d.name p.name,
      description := jsOrStr d.description p.description,
      price := jsOrInt d.price p.price },
    l1, l2, hl, ?_, ?_, ?_, ?_, ?_, ?_, ?_, ?_, ?_, ?_, rfl, rfl, rfl, rfl,
    ?_, ?_, ?_, ?_, ?_, ?_, rfl, rfl, rfl, rfl, rfl⟩
  · simp only [putProduct, hf]
    rw [hupd]
  · simp only [putProductDisk, hf]
    rw [hupd]
  · rintro (h | h) <;> simp [jsOrStr, h]
  · intro s hs hne
    simp [jsOrStr, hs, hne]
  · rintro (h | h) <;> simp [jsOrStr, h]
  · intro s hs hne
    simp [jsOrStr, hs, hne]
  · rintro (h | h) <;> simp [jsOrInt, h]
  · intro n hn hne
    simp [jsOrInt, hn, hne]
  · intro h
    simp [h]
  · intro h
    simp [h]
  · rintro (h | h) <;> simp [jsOrStr, h]
  · intro s hs hne
    simp [jsOrStr, hs, hne]
  · rintro (h | h) <;> simp [jsOrStr, h]
  · intro s hs hne
    simp [jsOrStr, hs, hne]
  · rintro (h | h) <;> simp [jsOrInt, h]
  · intro n hn hne
    simp [jsOrInt, hn, hne]

/-- Database for the C7 witness: one owned product with known fields. -/
def c7wdb : DB := { emptyDB with
  products := [⟨1, "p", "d", 5, some "img", true, some 1, 1⟩] }

/-- Witness for C7: supplying a truthy name, an empty description, a zero
price and no image updates only the name. -/
theorem c7_partial_update_witness :
    ((putProduct 1 1 { name := some "N", description := some "", price := some 0 }
        c7wdb).1.map Product.name = some "N") ∧
    ((putProduct 1 1 { name := some "N", description := some "", price := some 0 }
        c7wdb).1.map Product.description = some "d") ∧
    ((putProduct 1 1 { name := some "N", description := some "", price := some 0 }
        c7wdb).1.map Product.price = some 5) ∧
    ((putProduct 1 1 { name := some "N", description := some "", price := some 0 }
        c7wdb).1.map Product.image = some (some "img")) := by
  obtain ⟨p', q', l1, l2, hl, h2, h3, hn1, hn2, hd1, hd2, hp1, hp2, hi1, hi2,
      hid, hact, hcat, husr, gn1, gn2, gd1, gd2, gp1, gp2, gim, gid, gact,
      gcat, gusr⟩ :=
    c7_partial_update c7wdb 1 1
      { name := some "N", description := some "", price := some 0 } {} []
      ⟨1, "p", "d", 5, some "img", true, some 1, 1⟩ (by decide)
  refine ⟨?_, ?_, ?_, ?_⟩ <;> rw [h2] <;>
    simp [hn2 "N" rfl (by decide), hd1 (Or.inr rfl), hp1 (Or.inr rfl),
      hi1 (by decide)]

/-! Public product listing (C8). -/

/-- Database for the C8 counterexample: a single inactive product. -/
def c8db : DB := { emptyDB with
  products := [⟨1, "p", "d", 5, none, false, none, 1⟩] }

/-- C8 counterexample: the public listing filters `{activo: true}`, so an
inactive product is not returned even though the claim promises all product
records. -/
theorem c8_inactive_hidden_counterexample :
    publicProducts c8db none = [] ∧ c8db.products ≠ [] := by decide

/-- C8 (amended): the public listing returns exactly the ACTIVE products —
of every owner — optionally filtered by the supplied category identifier,
each augmented with the name of the category its reference resolves to. -/
theorem c8_public_listing (db : DB) (cf : Option Nat) :
    (∀ pr ∈ publicProducts db cf, pr.1 ∈ db.products ∧ pr.1.activo = true ∧
      (∀ c, cf = some c → pr.1.categoryId = some c)) ∧
    (∀ p ∈ db.products, p.activo = true →
      (∀ c, cf = some c → p.categoryId = some c) →
      ∃ nm, (p, nm) ∈ publicProducts db cf) ∧
    (∀ p nm, (p, nm) ∈ publicProducts db cf →
      (p.categoryId = none → nm = none) ∧
      (∀ cid, p.categoryId = some cid →
        nm = (db.categories.find? (fun c => c._id == cid)).map Category.name)) := by
  refine ⟨?_, ?_, ?_⟩
  · intro pr hpr
    obtain ⟨q, hq, heq⟩ := List.mem_map.mp hpr
    obtain ⟨hq1, hq2⟩ := List.mem_filter.mp hq
    rw [Bool.and_eq_true] at hq2
    subst heq
    refine ⟨hq1, hq2.1, ?_⟩
    intro c hc
    subst hc
    have := hq2.2
    simpa using this
  · intro p hp hact hcf
    refine ⟨_, List.mem_map.mpr ⟨p, List.mem_filter.mpr ⟨hp, ?_⟩, rfl⟩⟩
    cases cf with
    | none => simp [hact]
    | some c => simp [hact, hcf c rfl]
  · intro p nm hmem
    obtain ⟨q, hq, heq⟩ := List.mem_map.mp hmem
    rw [Prod.mk.injEq] at heq
    obtain ⟨rfl, hnm⟩ := heq
    constructor
    · intro hnone
      rw [hnone] at hnm
      exact hnm.symm
    · intro cid hcid
      rw [hcid] at hnm
      exact hnm.symm

/-- Database for the C8 witness: an active product of user 1 in category 1
and an active uncategorised product of user 2. -/
def c8wdb : DB :=
  { users := [], categories := [⟨1, "Cat", 1⟩],
    products := [⟨1, "p", "d", 5, none, true, some 1, 1⟩],
    movies := [] }

/-- Witness for the amended C8: the active product is listed with its
category's name attached. -/
theorem c8_public_listing_witness :
    ((⟨1, "p", "d", 5, none, true, some 1, 1⟩ : Product), some "Cat")
      ∈ publicProducts c8wdb none := by
  obtain ⟨nm, hmem⟩ := (c8_public_listing c8wdb none).2.1
    ⟨1, "p", "d", 5, none, true, some 1, 1⟩ (by decide) rfl
    (fun c hc => by cases hc)
  have hnm := ((c8_public_listing c8wdb none).2.2 _ nm hmem).2 1 rfl
  have : nm = some "Cat" := by rw [hnm]; decide
  rw [← this]
  exact hmem

/-! Create-time validation (C9). -/

/-- C9 counterexample: a product created with an image but no name at all is
accepted with 201 — no ValidationError is raised for the missing name. -/
theorem c9_missing_name_accepted_counterexample :
    ((createProduct 1 { image := some "http://img" } 5 emptyDB).1
      = CreateResult.created) ∧
    (({ image := some "http://img" } : ProductBody).name = none) := by decide

/-- C9 (amended): only the movie create validates all its required fields
(any falsy one, or a missing upload, yields 400 with nothing persisted; all
present yields 201); the hosted-variant product create validates only the
image (400 exactly when it is falsy); the disk-variant product create
validates nothing and always persists; the category create performs no
in-handler validation — a missing name surfaces as a generic 500 from the
schema, never as a 400 ValidationError. -/
theorem c9_create_validation (uid nid : Nat) (db : DB) (b : ProductBody)
    (mb : MovieBody) (d : DiskBody) (cat : Option Nat) (f : Option String) :
    (truthyStr b.image = false → createProduct uid b nid db = (.badRequest, db)) ∧
    (truthyStr b.image = true → (createProduct uid b nid db).1 = .created) ∧
    (truthyStr mb.name = false → createMovie uid mb f nid db = (.badRequest, db)) ∧
    (truthyStr mb.genre = false → createMovie uid mb f nid db = (.badRequest, db)) ∧
    (truthyStr mb.description = false →
      createMovie uid mb f nid db = (.badRequest, db)) ∧
    (mb.dateTime = none → createMovie uid mb f nid db = (.badRequest, db)) ∧
    (f = none → createMovie uid mb f nid db = (.badRequest, db)) ∧
    (truthyStr mb.name = true → truthyStr mb.genre = true →
      truthyStr mb.description = true → mb.dateTime.isSome = true →
      ∀ img, f = some img → (createMovie uid mb f nid db).1 = .created) ∧
    ((createProductDisk uid d cat f nid db).1 = .created) ∧
    (createCategory uid none nid db = (.serverError, db)) := by
  refine ⟨?_, ?_, ?_, ?_, ?_, ?_, ?_, ?_, rfl, rfl⟩
  · intro h
    simp [createProduct, h]
  · intro h
    simp [createProduct, h]
  · intro h
    simp [createMovie, h]
  · intro h
    simp [createMovie, h]
  · intro h
    simp [createMovie, h]
  · intro h
    simp [createMovie, h]
  · intro h
    subst h
    simp only [createMovie]
    split
    · rfl
    · rfl
  · intro h1 h2 h3 h4 img hf
    subst hf
    simp [createMovie, h1, h2, h3, h4]

/-- Witness for the amended C9 at concrete bodies. -/
theorem c9_create_validation_witness :
    createProduct 1 {} 5 emptyDB = (.badRequest, emptyDB) ∧
    (createProduct 1 { image := some "u" } 5 emptyDB).1 = .created ∧
    createMovie 1 {} none 5 emptyDB = (.badRequest, emptyDB) ∧
    (createMovie 1
        { name := some "n", genre := some "g", description := some "d",
          dateTime := some 0 }
        (some "f.png") 5 emptyDB).1 = .created ∧
    (createProductDisk 1 {} none none 5 emptyDB).1 = .created ∧
    createCategory 1 none 5 emptyDB = (.serverError, emptyDB) := by
  refine ⟨?_, ?_, ?_, ?_, ?_, ?_⟩
  · exact (c9_create_validation 1 5 emptyDB {} {} {} none none).1 rfl
  · exact (c9_create_validation 1 5 emptyDB { image := some "u" } {} {} none
      none).2.1 (by decide)
  · exact (c9_create_validation 1 5 emptyDB {} {} {} none none).2.2.1 rfl
  · exact (c9_create_validation 1 5 emptyDB {}
      { name := some "n", genre := some "g", description := some "d",
        dateTime := some 0 } {} none (some "f.png")).2.2.2.2.2.2.2.1
      (by decide) (by decide) (by decide) rfl "f.png" rfl
  · exact (c9_create_validation 1 5 emptyDB {} {} {} none none).2.2.2.2.2.2.2.2.1
  · exact (c9_create_validation 1 5 emptyDB {} {} {} none none).2.2.2.2.2.2.2.2.2

/-! Disk-variant image replacement (C10). -/

/-- C10: in the disk variant, an owned-product update carrying a new image
file removes the previously stored image path from the filesystem and saves
the record with the new filename — every other stored path survives; when
the stored image reference is null, the old-path computation throws, the
request is answered 500, and neither the filesystem nor any record field
changes. -/
theorem c10_disk_image_replacement (db : DB) (uid pid : Nat) (b : DiskBody)
    (f : String) (fsys : List String) (p : Product)
    (hf : db.products.find? (fun q => q._id == pid && q.userId == uid) = some p) :
    (p.image = none →
      putProductDisk uid pid b (some f) fsys db = (.serverError, fsys, db)) ∧
    (∀ img, p.image = some img →
      ("photos/" ++ img) ∉ (putProductDisk uid pid b (some f) fsys db).2.1 ∧
      (∀ q ∈ fsys, q ≠ "photos/" ++ img →
        q ∈ (putProductDisk uid pid b (some f) fsys db).2.1) ∧
      ∃ p' l1 l2, db.products = l1 ++ p :: l2 ∧
        (putProductDisk uid pid b (some f) fsys db).1 = .ok p' ∧
        (putProductDisk uid pid b (some f) fsys db).2.2.products
          = l1 ++ p' :: l2 ∧
        p'.image = some f ∧ p'._id = p._id ∧ p'.userId = p.userId) := by
  obtain ⟨l1, l2, hl, hneg⟩ := find?_decomp hf
  have hpa := List.find?_some hf
  have hupd : ∀ g : Product → Product,
      updateFirst (fun q => q._id == pid && q.userId == uid) g db.products
        = l1 ++ g p :: l2 := by
    intro g
    rw [hl]
    exact updateFirst_append_pos _ _ hneg hpa
  refine ⟨?_, ?_⟩
  · intro h
    simp [putProductDisk, hf, h]
  · intro img himg
    refine ⟨?_, ?_, ?_⟩
    · simp only [putProductDisk, hf, himg]
      cases hcont : fsys.contains ("photos/" ++ img) with
      | true =>
        rw [if_pos rfl]
        intro hmem
        have := (List.mem_filter.mp hmem).2
        simp at this
      | false =>
        rw [if_neg (by simp)]
        simpa using hcont
    · intro q hq hne
      simp only [putProductDisk, hf, himg]
      cases hcont : fsys.contains ("photos/" ++ img) with
      | true =>
        rw [if_pos rfl]
        refine List.mem_filter.mpr ⟨hq, ?_⟩
        simpa using hne
      | false =>
        rw [if_neg (by simp)]
        exact hq
    · refine ⟨{ p with
        name := jsOrStr b.name p.name,
        description := jsOrStr b.description p.description,
        price := jsOrInt b.price p.price,
        image := some f }, l1, l2, hl, ?_, ?_, rfl, rfl, rfl⟩
      · simp [putProductDisk, hf, himg]
      · simp only [putProductDisk, hf, himg]
        rw [hupd]

/-- Database for the C10 error witness: user 1's product has no stored
image. -/
def c10errdb : DB := { emptyDB with
  products := [⟨1, "p", "d", 5, none, true, none, 1⟩] }

/-- Database for the C10 success witness: user 1's product stores
`old.png`. -/
def c10okdb : DB := { emptyDB with
  products := [⟨1, "p", "d", 5, some "old.png", true, none, 1⟩] }

/-- Witness for C10: the image-less product yields a 500 touching nothing;
the product with a stored image has its old file removed from disk. -/
theorem c10_disk_image_replacement_witness :
    putProductDisk 1 1 {} (some "n.png") [] c10errdb
      = (.serverError, [], c10errdb) ∧
    "photos/old.png"
      ∉ (putProductDisk 1 1 {} (some "n.png") ["photos/old.png"] c10okdb).2.1 := by
  constructor
  · exact (c10_disk_image_replacement c10errdb 1 1 {} "n.png" []
      ⟨1, "p", "d", 5, none, true, none, 1⟩ (by decide)).1 rfl
  · exact ((c10_disk_image_replacement c10okdb 1 1 {} "n.png" ["photos/old.png"]
      ⟨1, "p", "d", 5, some "old.png", true, none, 1⟩ (by decide)).2
      "old.png" rfl).1

end Restaurante
